import Mathlib

/-
Shallow embedding of the PiratesOfMinecraft scanner (src/search.py) and the
launcher's refresh path (src/launcher.py), with theorems settling the frozen
claims about the natural-language specification.

Conventions of the embedding:
* Python dicts with a fixed shape become structures.
* try/except around a fallible collaborator call becomes a match on an
  Option-valued oracle outcome (none = the call raised).
* The filesystem state backing the JSON store is an explicit `FileState`;
  an uncaught exception is an `Except.error` / `LoadOutcome.raised` value.
* The random source of `random.randint` is an explicit stream `Nat → Nat`;
  the unbounded `while True` retry loop is fuel-indexed and returns `none`
  when the fuel runs out.
-/

namespace PiratesMC

/-- Persisted server entry, with the fields built by `query_server` in
search.py.  The status-protocol variant leaves `software` and
`plugins_count` empty; the query-protocol variant fills them. -/
structure ServerRecord where
  address : String
  rtype : String
  players_online : Nat
  players_max : Nat
  version : String
  description : String
  software : Option String
  plugins_count : Option Nat
  timestamp : String
deriving DecidableEq, Repr

/-- Shape of discovered_servers.json: a list of records plus a count. -/
structure Store where
  servers : List ServerRecord
  total_count : Nat
deriving DecidableEq, Repr

/-- The empty store used when the backing file is missing or corrupt. -/
def emptyStore : Store := { servers := [], total_count := 0 }

/-- State of the JSON backing file as seen by the loaders: absent, present
but unreadable (open/read raises an OSError such as a permission error),
present but not valid JSON (json.load raises JSONDecodeError), or valid. -/
inductive FileState where
  | missing
  | unreadable
  | corrupt
  | valid (s : Store)
deriving DecidableEq, Repr

/-- search.py `load_or_create_json`: returns the parsed store, or the empty
store when the file is missing or json.load raises JSONDecodeError.  Only
JSONDecodeError is caught, so an OSError raised by `open` (the unreadable
state) propagates to the caller, modelled as `Except.error`. -/
def load_or_create_json : FileState → Except Unit Store
  | .missing => .ok emptyStore
  | .unreadable => .error ()
  | .corrupt => .ok emptyStore
  | .valid s => .ok s

/-- Outcome of launcher.py `load_servers`: a store, a `sys.exit` call, or an
uncaught exception. -/
inductive LoadOutcome where
  | store (s : Store)
  | exitProgram (code : Nat)
  | raised
deriving DecidableEq, Repr

/-- launcher.py `load_servers`: calls `sys.exit(1)` when the file is missing
or json.load raises JSONDecodeError; an OSError from `open` is not caught
and propagates. -/
def load_servers : FileState → LoadOutcome
  | .missing => .exitProgram 1
  | .unreadable => .raised
  | .corrupt => .exitProgram 1
  | .valid s => .store s

/-- search.py `is_reserved_ip`: a chain of early returns over the four
octets; the sequential early-return tests are rendered as the disjunction
of the individual range tests, one disjunct per return-True site, in
source order. -/
def is_reserved_ip (first second third fourth : Nat) : Bool :=
  decide (first = 10) ||
  decide (first = 172 ∧ 16 ≤ second ∧ second ≤ 31) ||
  decide (first = 192 ∧ second = 168) ||
  decide (first = 127) ||
  decide (first = 169 ∧ second = 254) ||
  decide (first = 0) ||
  decide (first = 100 ∧ 64 ≤ second ∧ second ≤ 127) ||
  decide (first = 192 ∧ second = 0 ∧ third = 0) ||
  decide (first = 192 ∧ second = 0 ∧ third = 2) ||
  decide (first = 192 ∧ second = 88 ∧ third = 99) ||
  decide (first = 198 ∧ (second = 18 ∨ second = 19)) ||
  decide (first = 198 ∧ second = 51 ∧ third = 100) ||
  decide (first = 203 ∧ second = 0 ∧ third = 113) ||
  decide (224 ≤ first ∧ first ≤ 239) ||
  decide (first = 255 ∧ second = 255 ∧ third = 255 ∧ fourth = 255) ||
  decide (240 ≤ first ∧ first ≤ 255)

/-- Python `random.randint lo hi` driven by one raw draw from the stream:
a value in the inclusive range [lo, hi]. -/
def randint (lo hi x : Nat) : Nat := lo + x % (hi - lo + 1)

/-- search.py `get_random_address`: the `while True` retry loop, indexed by
fuel; `src` is the random source, `pos` the index of the next raw draw.
Each iteration draws four octets (first in [1, 223], the rest in [0, 255])
and returns octets plus port 25565 once `is_reserved_ip` rejects none. -/
def get_random_address_from (src : Nat → Nat) :
    Nat → Nat → Option (Nat × Nat × Nat × Nat × Nat)
  | 0, _ => none
  | fuel + 1, pos =>
    let first := randint 1 223 (src pos)
    let second := randint 0 255 (src (pos + 1))
    let third := randint 0 255 (src (pos + 2))
    let fourth := randint 0 255 (src (pos + 3))
    if is_reserved_ip first second third fourth then
      get_random_address_from src fuel (pos + 4)
    else
      some (first, second, third, fourth, 25565)

/-- Membership of an IPv4 address (as octets) in the excluded ranges listed
in spec section 4.1, written from the spec's CIDR list, independently of
`is_reserved_ip`, for the refinement comparison of claim C3. -/
def InExcludedRangeSpec (a b c d : Nat) : Prop :=
  a = 10 ∨
  (a = 172 ∧ 16 ≤ b ∧ b ≤ 31) ∨
  (a = 192 ∧ b = 168) ∨
  a = 127 ∨
  (a = 169 ∧ b = 254) ∨
  a = 0 ∨
  (a = 100 ∧ 64 ≤ b ∧ b ≤ 127) ∨
  (a = 192 ∧ b = 0 ∧ c = 0) ∨
  (a = 192 ∧ b = 0 ∧ c = 2) ∨
  (a = 192 ∧ b = 88 ∧ c = 99) ∨
  (a = 198 ∧ 18 ≤ b ∧ b ≤ 19) ∨
  (a = 198 ∧ b = 51 ∧ c = 100) ∨
  (a = 203 ∧ b = 0 ∧ c = 113) ∨
  (224 ≤ a ∧ a ≤ 239) ∨
  (a = 255 ∧ b = 255 ∧ c = 255 ∧ d = 255) ∨
  (240 ≤ a ∧ a ≤ 255)

instance (a b c d : Nat) : Decidable (InExcludedRangeSpec a b c d) := by
  unfold InExcludedRangeSpec; infer_instance

/-- Decoded status-protocol response (the fields query_server reads). -/
structure StatusResponse where
  players_online : Nat
  players_max : Nat
  version : String
  description : String
  latency : Nat
deriving DecidableEq, Repr

/-- Decoded legacy query-protocol response (the fields query_server reads). -/
structure QueryResponse where
  players_online : Nat
  players_max : Nat
  version : String
  motd : String
  brand : String
  plugins_count : Nat
deriving DecidableEq, Repr

/-- Outcome of the network collaborator for one endpoint: the result of the
`server.status()` call and of the `server.query()` call (none = the call
raised).  `JavaServer.lookup` on an explicit host-and-port address performs
no network operation, only parsing, so it is not part of the oracle. -/
structure ProbeOracle where
  status : Option StatusResponse
  query : Option QueryResponse
deriving DecidableEq, Repr

/-- The two sub-protocols a probe may attempt. -/
inductive Proto where
  | statusP
  | queryP
deriving DecidableEq, Repr

/-- The server_info dict built on the status-protocol path. -/
def mkStatusRecord (addr now : String) (s : StatusResponse) : ServerRecord :=
  { address := addr, rtype := "status", players_online := s.players_online,
    players_max := s.players_max, version := s.version,
    description := s.description, software := none, plugins_count := none,
    timestamp := now }

/-- The server_info dict built on the query-protocol path. -/
def mkQueryRecord (addr now : String) (q : QueryResponse) : ServerRecord :=
  { address := addr, rtype := "query", players_online := q.players_online,
    players_max := q.players_max, version := q.version,
    description := q.motd, software := some q.brand,
    plugins_count := some q.plugins_count, timestamp := now }

/-- The locked write path of query_server: append the record to the servers
list and recompute total_count as the length of the updated list. -/
def storeAppend (st : Store) (r : ServerRecord) : Store :=
  { servers := st.servers ++ [r],
    total_count := (st.servers ++ [r]).length }

/-- search.py `query_server`, instrumented with the list of sub-protocols
attempted: try `status()` first; on its failure (only then) try `query()`;
if both fail return False touching nothing; on either success build the
record and write it through to the store.  Every except handler of the
source is translated, so the function is total: no collaborator outcome
escapes as an exception. -/
def query_serverT (o : ProbeOracle) (addr now : String) (st : Store) :
    Bool × Store × List Proto :=
  match o.status with
  | some s => (true, storeAppend st (mkStatusRecord addr now s), [.statusP])
  | none =>
    match o.query with
    | some q => (true, storeAppend st (mkQueryRecord addr now q),
                 [.statusP, .queryP])
    | none => (false, st, [.statusP, .queryP])

/-- search.py `query_server`: result flag and store after the call. -/
def query_server (o : ProbeOracle) (addr now : String) (st : Store) :
    Bool × Store :=
  ((query_serverT o addr now st).1, (query_serverT o addr now st).2.1)

/-- The read-modify-write performed under file_lock in query_server when a
probe succeeds: load the store from the backing file, append, write back. -/
def append_write_path (fs : FileState) (r : ServerRecord) :
    Except Unit Store :=
  (load_or_create_json fs).map (fun st => storeAppend st r)

/-- Iterated append: the store after k successful probe write-throughs of
the same record. -/
def appendN (st : Store) (r : ServerRecord) : Nat → Store
  | 0 => st
  | k + 1 => storeAppend (appendN st r k) r

/-- Number of records in the store whose address equals a. -/
def countAddr (st : Store) (a : String) : Nat :=
  st.servers.countP (fun r => r.address == a)

/-- Decoded live status used by the launcher's refresh (the fields
`get_server_status` returns on success). -/
structure LiveStatus where
  players_online : Nat
  players_max : Nat
  version : String
  description : String
  latency : Nat
deriving DecidableEq, Repr

/-- Fixed probe oracle for the refresh path: the outcome of
`get_server_status` per address (none = offline or raised). -/
def RefreshOracle : Type := String → Option LiveStatus

/-- launcher.py `get_server_status`: a dict with online=True and the status
fields, or online=False when the lookup or status call raises. -/
def get_server_status (o : RefreshOracle) (addr : String) :
    Option LiveStatus :=
  o addr

/-- launcher.py `check_server` (the worker body of refresh_server_data): on
a live status overwrite players_online and players_max; otherwise set
players_online to 0 and keep every other field.  The surrounding
try/except produces the same record on the failure path. -/
def check_server (o : RefreshOracle) (r : ServerRecord) : ServerRecord :=
  match get_server_status o r.address with
  | some st => { r with players_online := st.players_online,
                        players_max := st.players_max }
  | none => { r with players_online := 0 }

/-- Comparison used by the final sorted(..., key=players_online,
reverse=True): x before y when x has at least as many players online. -/
def playersLE (x y : ServerRecord) : Bool :=
  decide (y.players_online ≤ x.players_online)

/-- launcher.py `refresh_server_data`: refresh every record through
check_server, then replace the servers list with the refreshed records
sorted by players_online descending; total_count is left as loaded. -/
def refresh_server_data (o : RefreshOracle) (sd : Store) : Store :=
  { sd with
    servers := (sd.servers.map (check_server o)).mergeSort playersLE }

/-- Events of the scan loop's execution trace: a probe of batch b at batch
index i is handed to the thread pool, or resolves (returns or times out). -/
inductive ScanEv where
  | dispatch (batch idx : Nat)
  | complete (batch idx : Nat)
deriving DecidableEq, Repr

/-- The batch an event belongs to. -/
def ScanEv.evBatch : ScanEv → Nat
  | .dispatch b _ => b
  | .complete b _ => b

/-- Trace of one `scan_batch` call of batch b over `size` endpoints: every
event belongs to batch b, every endpoint is dispatched (executor.submit)
and completes before the call returns (concurrent.futures.wait with
ALL_COMPLETED), and each dispatch precedes its completion.  The
interleaving of events within the batch is otherwise arbitrary. -/
def BatchTraceOK (b size : Nat) (t : List ScanEv) : Prop :=
  (∀ e ∈ t, e.evBatch = b) ∧
  (∀ i < size, ScanEv.dispatch b i ∈ t) ∧
  (∀ i < size, ScanEv.complete b i ∈ t) ∧
  (∀ i < size, [ScanEv.dispatch b i, ScanEv.complete b i].Sublist t)

/-- Trace of the sequential `while True: scan_batch()` loop: each call
returns only after its whole batch trace is emitted, so the run trace is
the concatenation of the per-batch traces in batch order. -/
def scanTrace (parts : List (List ScanEv)) : List ScanEv :=
  parts.flatten

/-- Concrete record fixture: a status-protocol discovery. -/
def rec0 : ServerRecord :=
  { address := "1.2.3.4:25565", rtype := "status", players_online := 5,
    players_max := 20, version := "1.20.1",
    description := "A Minecraft Server", software := none,
    plugins_count := none, timestamp := "2024-01-01 00:00:00" }

/-- Concrete record fixture: a stored record with a stale timestamp. -/
def rec1 : ServerRecord :=
  { address := "5.6.7.8:25565", rtype := "status", players_online := 7,
    players_max := 10, version := "1.19.4",
    description := "Another Server", software := none,
    plugins_count := none, timestamp := "2024-02-02 12:00:00" }

/-- Concrete status response fixture. -/
def statusResp0 : StatusResponse :=
  { players_online := 5, players_max := 20, version := "1.20.1",
    description := "A Minecraft Server", latency := 37 }

/-- Refresh oracle under which every probe fails. -/
def failOracle : RefreshOracle := fun _ => none

/-- Helper: check_server never changes the address of a record. -/
theorem check_server_address (o : RefreshOracle) (r : ServerRecord) :
    (check_server o r).address = r.address := by
  unfold check_server get_server_status
  cases o r.address <;> rfl

/-- Helper: refreshing an already refreshed record changes nothing, for a
fixed oracle. -/
theorem check_server_idem (o : RefreshOracle) (r : ServerRecord) :
    check_server o (check_server o r) = check_server o r := by
  unfold check_server get_server_status
  cases h : o r.address <;> simp [h]

/-- Helper: playersLE is transitive. -/
theorem playersLE_trans (a b c : ServerRecord) :
    playersLE a b → playersLE b c → playersLE a c := by
  simp only [playersLE, decide_eq_true_eq]
  omega

/-- Helper: playersLE is total. -/
theorem playersLE_total (a b : ServerRecord) :
    playersLE a b || playersLE b a := by
  simp only [playersLE, Bool.or_eq_true, decide_eq_true_eq]
  omega

/-- Claim C1, counterexample: the claimed at-most-one-record-per-endpoint
invariant fails on the code.  The write path of query_server appends
unconditionally, so two successful probes of the same endpoint leave two
records for it. -/
theorem append_dup_counterexample :
    ¬ (countAddr (storeAppend (storeAppend emptyStore rec0) rec0)
        rec0.address ≤ 1) := by decide

/-- Claim C1, amended: the store does not deduplicate; every successful
probe write-through appends one record, so after k appends of a record the
store holds exactly k more records for its endpoint than before. -/
theorem append_count_additive (st : Store) (r : ServerRecord) (k : Nat) :
    countAddr (appendN st r k) r.address = countAddr st r.address + k := by
  induction k with
  | zero => rfl
  | succ k ih =>
    simp only [appendN, countAddr, storeAppend, List.countP_append] at *
    simp [ih, List.countP_cons]
    omega

/-- Claim C5, counterexample: load is claimed to return the empty store
without raising and without terminating the program for every backing-file
state, but the scanner's load_or_create_json catches only JSONDecodeError,
so a file that exists yet cannot be read raises; and the launcher's
load_servers terminates the program (sys.exit 1) on a missing file. -/
theorem load_unreadable_counterexample :
    load_or_create_json FileState.unreadable = Except.error () ∧
    load_servers FileState.missing = LoadOutcome.exitProgram 1 :=
  ⟨rfl, rfl⟩

/-- Claim C5, amended: the scanner's loader returns the parsed store when
the file parses, and the empty store without raising when the file is
missing or contains corrupt JSON; a permission error while opening the
file propagates as an exception.  The launcher's load_servers instead
terminates the program with exit code 1 on a missing or corrupt file and
lets a permission error propagate. -/
theorem load_recovery_amended (s : Store) :
    load_or_create_json FileState.missing = Except.ok emptyStore ∧
    load_or_create_json FileState.corrupt = Except.ok emptyStore ∧
    load_or_create_json (FileState.valid s) = Except.ok s ∧
    load_or_create_json FileState.unreadable = Except.error () ∧
    load_servers FileState.missing = LoadOutcome.exitProgram 1 ∧
    load_servers FileState.corrupt = LoadOutcome.exitProgram 1 ∧
    load_servers (FileState.valid s) = LoadOutcome.store s ∧
    load_servers FileState.unreadable = LoadOutcome.raised :=
  ⟨rfl, rfl, rfl, rfl, rfl, rfl, rfl, rfl⟩

/-- Claim C6, counterexample: the probe is claimed never to write to the
result store, but query_server itself performs the write-through on a
successful probe: with a succeeding status oracle the store after the call
differs from the store before it. -/
theorem probe_writes_store_counterexample :
    (query_server ⟨some statusResp0, none⟩ "1.2.3.4:25565"
        "2024-01-01 00:00:00" emptyStore).2 ≠ emptyStore := by decide

/-- Claim C6, amended: on a failed probe query_server leaves the store
untouched, but on a successful probe query_server itself appends the
record to the store (the write-through happens inside the probe under the
file lock, not in the orchestrator). -/
theorem probe_store_effect (o : ProbeOracle) (addr now : String)
    (st : Store) :
    ((query_server o addr now st).1 = false →
      (query_server o addr now st).2 = st) ∧
    ((query_server o addr now st).1 = true →
      ∃ r, (query_server o addr now st).2 = storeAppend st r) := by
  rcases o with ⟨s, q⟩
  cases s with
  | some sv =>
    exact ⟨fun h => by simp [query_server, query_serverT] at h,
           fun _ => ⟨mkStatusRecord addr now sv, rfl⟩⟩
  | none =>
    cases q with
    | some qv =>
      exact ⟨fun h => by simp [query_server, query_serverT] at h,
             fun _ => ⟨mkQueryRecord addr now qv, rfl⟩⟩
    | none =>
      exact ⟨fun _ => rfl,
             fun h => by simp [query_server, query_serverT] at h⟩

/-- Witness for claim C6's amended theorem at a concrete failing oracle. -/
theorem probe_store_effect_witness :
    (query_server ⟨none, none⟩ "1.2.3.4:25565" "2024-01-01 00:00:00"
        emptyStore).2 = emptyStore :=
  (probe_store_effect ⟨none, none⟩ "1.2.3.4:25565" "2024-01-01 00:00:00"
      emptyStore).1 rfl

/-- Claim C7, counterexample: refresh of a record whose probe fails is
claimed to update the last_seen timestamp, but check_server writes only
players_online; the refreshed record keeps its stale stored timestamp
unchanged (the function receives no clock and never touches the field). -/
theorem refresh_timestamp_counterexample :
    check_server failOracle rec1 = { rec1 with players_online := 0 } ∧
    (check_server failOracle rec1).timestamp = "2024-02-02 12:00:00" :=
  ⟨rfl, rfl⟩

/-- Claim C7, amended: for every stored record whose re-probe fails during
refresh, the refreshed record has players_online = 0 and every other field
unchanged — version and description are preserved, and the last_seen
timestamp is also left unchanged rather than updated; the record is
retained, not deleted. -/
theorem refresh_failure_frame (o : RefreshOracle) (r : ServerRecord)
    (h : o r.address = none) :
    check_server o r = { r with players_online := 0 } := by
  simp [check_server, get_server_status, h]

/-- Witness for claim C7's amended theorem at a concrete record and a
concrete failing oracle. -/
theorem refresh_failure_frame_witness :
    check_server failOracle rec0 = { rec0 with players_online := 0 } :=
  refresh_failure_frame failOracle rec0 rfl

/-- Claim C10: after the write path of a successful probe (load the store,
append the record, recompute total_count), the persisted store satisfies
total_count = length of the servers list, whatever store was read back —
the invariant is recomputed from the list on every write. -/
theorem append_total_count (fs : FileState) (r : ServerRecord) (st : Store)
    (h : append_write_path fs r = Except.ok st) :
    st.total_count = st.servers.length := by
  cases fs with
  | missing =>
    simp only [append_write_path, load_or_create_json, Except.map,
      Except.ok.injEq] at h
    subst h; rfl
  | unreadable =>
    simp [append_write_path, load_or_create_json, Except.map] at h
  | corrupt =>
    simp only [append_write_path, load_or_create_json, Except.map,
      Except.ok.injEq] at h
    subst h; rfl
  | valid s =>
    simp only [append_write_path, load_or_create_json, Except.map,
      Except.ok.injEq] at h
    subst h; rfl

/-- Witness for claim C10 at a backing file whose stored total_count (5)
violates the invariant before the append. -/
theorem append_total_count_witness :
    (Store.mk [rec0] 1).total_count = (Store.mk [rec0] 1).servers.length :=
  append_total_count (FileState.valid (Store.mk [] 5)) rec0
    (Store.mk [rec0] 1) rfl

/-- Claim C2: for every outcome of the network collaborator, the probe
attempts the status protocol first, attempts the legacy query protocol if
and only if the status attempt fails, and returns Failure (False) if and
only if both attempts fail.  Exception freedom is reflected by the
embedding: every except handler of query_server is translated, so
query_serverT is a total function of the oracle — no collaborator outcome
escapes to the caller. -/
theorem probe_fallback_order (o : ProbeOracle) (addr now : String)
    (st : Store) :
    (query_serverT o addr now st).2.2.head? = some Proto.statusP ∧
    (Proto.queryP ∈ (query_serverT o addr now st).2.2 ↔ o.status = none) ∧
    ((query_serverT o addr now st).1 = false ↔
      o.status = none ∧ o.query = none) := by
  rcases o with ⟨s, q⟩
  cases s <;> cases q <;> simp [query_serverT]

/-- Helper for claim C3: every address in the spec's excluded list of
section 4.1 is rejected by the code's is_reserved_ip. -/
theorem spec_range_reserved (a b c d : Nat)
    (h : InExcludedRangeSpec a b c d) :
    is_reserved_ip a b c d = true := by
  unfold InExcludedRangeSpec at h
  simp only [is_reserved_ip, Bool.or_eq_true, decide_eq_true_eq]
  rcases h with h | h | h | h | h | h | h | h | h | h | h | h | h | h | h | h
  · exact Or.inl (Or.inl (Or.inl (Or.inl (Or.inl (Or.inl (Or.inl (Or.inl
      (Or.inl (Or.inl (Or.inl (Or.inl (Or.inl (Or.inl (Or.inl h))))))))))))))
  · exact Or.inl (Or.inl (Or.inl (Or.inl (Or.inl (Or.inl (Or.inl (Or.inl
      (Or.inl (Or.inl (Or.inl (Or.inl (Or.inl (Or.inl (Or.inr h))))))))))))))
  · exact Or.inl (Or.inl (Or.inl (Or.inl (Or.inl (Or.inl (Or.inl (Or.inl
      (Or.inl (Or.inl (Or.inl (Or.inl (Or.inl (Or.inr h)))))))))))))
  · exact Or.inl (Or.inl (Or.inl (Or.inl (Or.inl (Or.inl (Or.inl (Or.inl
      (Or.inl (Or.inl (Or.inl (Or.inl (Or.inr h))))))))))))
  · exact Or.inl (Or.inl (Or.inl (Or.inl (Or.inl (Or.inl (Or.inl (Or.inl
      (Or.inl (Or.inl (Or.inl (Or.inr h)))))))))))
  · exact Or.inl (Or.inl (Or.inl (Or.inl (Or.inl (Or.inl (Or.inl (Or.inl
      (Or.inl (Or.inl (Or.inr h))))))))))
  · exact Or.inl (Or.inl (Or.inl (Or.inl (Or.inl (Or.inl (Or.inl (Or.inl
      (Or.inl (Or.inr h)))))))))
  · exact Or.inl (Or.inl (Or.inl (Or.inl (Or.inl (Or.inl (Or.inl (Or.inl
      (Or.inr h))))))))
  · exact Or.inl (Or.inl (Or.inl (Or.inl (Or.inl (Or.inl (Or.inl
      (Or.inr h)))))))
  · exact Or.inl (Or.inl (Or.inl (Or.inl (Or.inl (Or.inl (Or.inr h))))))
  · have hh : a = 198 ∧ (b = 18 ∨ b = 19) := ⟨h.1, by omega⟩
    exact Or.inl (Or.inl (Or.inl (Or.inl (Or.inl (Or.inr hh)))))
  · exact Or.inl (Or.inl (Or.inl (Or.inl (Or.inr h))))
  · exact Or.inl (Or.inl (Or.inl (Or.inr h)))
  · exact Or.inl (Or.inl (Or.inr h))
  · exact Or.inl (Or.inr h)
  · exact Or.inr h

/-- Claim C3: whenever the address generator returns, the endpoint has
port 25565 and an address outside every excluded range of spec section
4.1, for every state of the random source and any amount of fuel for the
retry loop. -/
theorem addr_gen_not_excluded (src : Nat → Nat)
    (fuel pos a b c d p : Nat)
    (h : get_random_address_from src fuel pos = some (a, b, c, d, p)) :
    p = 25565 ∧ ¬ InExcludedRangeSpec a b c d := by
  induction fuel generalizing pos with
  | zero => simp [get_random_address_from] at h
  | succ fuel ih =>
    simp only [get_random_address_from] at h
    split at h
    · exact ih _ h
    · rename_i hres
      simp only [Option.some.injEq, Prod.mk.injEq] at h
      obtain ⟨ha, hb, hc, hd, hp⟩ := h
      subst ha hb hc hd hp
      refine ⟨rfl, fun hex => ?_⟩
      rw [spec_range_reserved _ _ _ _ hex] at hres
      exact hres rfl

/-- Witness for claim C3: a constant random source yields 1.0.0.0:25565 on
the first draw, which avoids every excluded range. -/
theorem addr_gen_not_excluded_witness :
    (25565 : Nat) = 25565 ∧ ¬ InExcludedRangeSpec 1 0 0 0 :=
  addr_gen_not_excluded (fun _ => 0) 1 0 1 0 0 0 25565 (by decide)

/-- Claim C8: the collection returned by the refresh is sorted by
players_online in descending order, and is a permutation of the per-record
refreshes of the input — same count, same addresses, no record inserted or
deleted. -/
theorem refresh_sorted_perm (o : RefreshOracle) (sd : Store) :
    (refresh_server_data o sd).servers.Pairwise
      (fun x y => y.players_online ≤ x.players_online) ∧
    (refresh_server_data o sd).servers.Perm
      (sd.servers.map (check_server o)) ∧
    (refresh_server_data o sd).servers.length = sd.servers.length ∧
    ((refresh_server_data o sd).servers.map (fun r => r.address)).Perm
      (sd.servers.map (fun r => r.address)) := by
  have hperm : ((sd.servers.map (check_server o)).mergeSort
      playersLE).Perm (sd.servers.map (check_server o)) :=
    List.mergeSort_perm _ _
  refine ⟨?_, ?_, ?_, ?_⟩
  · have hp := List.sorted_mergeSort playersLE_trans playersLE_total
      (sd.servers.map (check_server o))
    refine List.Pairwise.imp ?_ hp
    intro x y hxy
    simpa [playersLE] using hxy
  · exact hperm
  · simp [refresh_server_data]
  · have h1 : ((refresh_server_data o sd).servers.map
        (fun r => r.address)).Perm
        ((sd.servers.map (check_server o)).map (fun r => r.address)) :=
      hperm.map _
    refine h1.trans ?_
    rw [List.map_map]
    have h2 : sd.servers.map ((fun r => r.address) ∘ check_server o) =
        sd.servers.map (fun r => r.address) :=
      List.map_congr_left (fun r _ => check_server_address o r)
    rw [h2]

/-- Claim C9: with a fixed probe oracle, refreshing twice in succession
yields exactly the same store as refreshing once — the same sorted order
and record count, with nothing duplicated, dropped, or reordered by the
second pass. -/
theorem refresh_idempotent (o : RefreshOracle) (sd : Store) :
    refresh_server_data o (refresh_server_data o sd) =
      refresh_server_data o sd := by
  unfold refresh_server_data
  congr 1
  have hfix : ∀ x ∈ (sd.servers.map (check_server o)).mergeSort playersLE,
      check_server o x = x := by
    intro x hx
    rw [List.mem_mergeSort] at hx
    obtain ⟨r, _, rfl⟩ := List.mem_map.mp hx
    exact check_server_idem o r
  have hmap : ((sd.servers.map (check_server o)).mergeSort
      playersLE).map (check_server o) =
      (sd.servers.map (check_server o)).mergeSort playersLE := by
    calc ((sd.servers.map (check_server o)).mergeSort playersLE).map
          (check_server o) =
        ((sd.servers.map (check_server o)).mergeSort playersLE).map
          (fun x => x) :=
          List.map_congr_left (fun x hx => hfix x hx)
      _ = (sd.servers.map (check_server o)).mergeSort playersLE := by
          simp
  rw [hmap]
  exact List.mergeSort_of_sorted
    (List.sorted_mergeSort playersLE_trans playersLE_total _)

/-- Helper for claim C4: if the k-th segment of a run trace holds only
events of batch b + k, then every event of the flattened trace belongs to
batch b or later. -/
theorem flatten_batch_lb (parts : List (List ScanEv)) :
    ∀ (b : Nat),
      (∀ k (hk : k < parts.length),
        ∀ e ∈ parts.get ⟨k, hk⟩, e.evBatch = b + k) →
      ∀ e ∈ parts.flatten, b ≤ e.evBatch := by
  induction parts with
  | nil =>
    intro b _ e he
    simp at he
  | cons p ps ih =>
    intro b h e he
    rw [List.flatten_cons] at he
    rcases List.mem_append.mp he with hp | hps
    · have hb := h 0 (by simp) e hp
      omega
    · have hb := ih (b + 1)
        (fun k hk e2 he2 => by
          have := h (k + 1) (Nat.succ_lt_succ hk) e2 he2
          omega)
        e hps
      omega

/-- Helper for claim C4: in the flattened trace of batch-homogeneous
segments laid out in batch order, the batch number is monotone along any
two-element subsequence. -/
theorem flatten_pair_mono (parts : List (List ScanEv)) :
    ∀ (b : Nat) (e1 e2 : ScanEv),
      (∀ k (hk : k < parts.length),
        ∀ e ∈ parts.get ⟨k, hk⟩, e.evBatch = b + k) →
      [e1, e2].Sublist parts.flatten → e1.evBatch ≤ e2.evBatch := by
  induction parts with
  | nil =>
    intro b e1 e2 _ hs
    simp at hs
  | cons p ps ih =>
    intro b e1 e2 h hs
    rw [List.flatten_cons] at hs
    obtain ⟨l1, l2, heq, h1, h2⟩ := List.sublist_append_iff.mp hs
    have hshift : ∀ k (hk : k < ps.length),
        ∀ e ∈ ps.get ⟨k, hk⟩, e.evBatch = (b + 1) + k :=
      fun k hk e2a he2 => by
        have := h (k + 1) (Nat.succ_lt_succ hk) e2a he2
        omega
    rcases l1 with _ | ⟨x, _ | ⟨y, l1t⟩⟩
    · rw [List.nil_append] at heq
      subst heq
      exact ih (b + 1) e1 e2 hshift h2
    · rw [List.cons_append, List.nil_append] at heq
      obtain ⟨hx, hl⟩ := List.cons.inj heq
      subst hx
      subst hl
      have he1 : e1 ∈ p := h1.subset (List.mem_singleton_self e1)
      have hb1 : e1.evBatch = b := by
        have := h 0 (by simp) e1 he1
        omega
      have he2 : e2 ∈ ps.flatten :=
        h2.subset (List.mem_singleton_self e2)
      have hb2 := flatten_batch_lb ps (b + 1) hshift e2 he2
      omega
    · simp only [List.cons_append] at heq
      obtain ⟨hx, heq2⟩ := List.cons.inj heq
      obtain ⟨hy, heq3⟩ := List.cons.inj heq2
      subst hx
      subst hy
      have he1 : e1 ∈ p := h1.subset (by simp)
      have he2 : e2 ∈ p := h1.subset (by simp)
      have hb1 := h 0 (by simp) e1 he1
      have hb2 := h 0 (by simp) e2 he2
      omega

/-- Claim C4: in the trace of the scan loop — segments produced by
successive scan_batch calls, each a complete batch trace in the sense of
BatchTraceOK, concatenated in batch order because the loop is sequential
and scan_batch returns only after concurrent.futures.wait with
ALL_COMPLETED — a dispatch of a later batch never precedes a completion of
an earlier batch: no probe of batch N+1 is dispatched while any probe of
batch N is still pending. -/
theorem batch_barrier (parts : List (List ScanEv)) (size : Nat)
    (hok : ∀ k (hk : k < parts.length),
      BatchTraceOK k size (parts.get ⟨k, hk⟩))
    (i j x y : Nat) (hij : i < j) :
    ¬ ([ScanEv.dispatch j y, ScanEv.complete i x].Sublist
        (scanTrace parts)) := by
  intro hs
  have hmono := flatten_pair_mono parts 0
    (ScanEv.dispatch j y) (ScanEv.complete i x)
    (fun k hk e he => by
      have := (hok k hk).1 e he
      omega)
    hs
  simp only [ScanEv.evBatch] at hmono
  omega

/-- Concrete two-batch run trace for the claim C4 witness. -/
def demoParts : List (List ScanEv) :=
  [[ScanEv.dispatch 0 0, ScanEv.complete 0 0],
   [ScanEv.dispatch 1 0, ScanEv.complete 1 0]]

/-- Witness for claim C4 on a concrete two-batch trace of one probe each. -/
theorem batch_barrier_witness :
    ¬ ([ScanEv.dispatch 1 0, ScanEv.complete 0 0].Sublist
        (scanTrace demoParts)) :=
  batch_barrier demoParts 1
    (by
      intro k hk
      have hk2 : k < 2 := hk
      interval_cases k
      · show BatchTraceOK 0 1 [ScanEv.dispatch 0 0, ScanEv.complete 0 0]
        unfold BatchTraceOK
        decide
      · show BatchTraceOK 1 1 [ScanEv.dispatch 1 0, ScanEv.complete 1 0]
        unfold BatchTraceOK
        decide)
    0 1 0 0 (by omega)

end PiratesMC
